import Mathlib

/-!
# Verification of the stackexchange-xml-parser extraction pipeline

Shallow embedding of `src/parser.py` and `src/parser2.py`.  XML rows are
modelled as association lists of string attributes; the streaming pass over
row-end events is modelled as structural recursion over the list of records.
Python `int()` conversion, which raises `ValueError` on a non-numeric string,
is modelled in the `Except String` monad.
-/

deriving instance DecidableEq for Except

/-- One `<row .../>` record: an association list from attribute name to raw
string value (mirrors `dict(elem.attrib)`). -/
abbrev Record := List (String × String)

/-- `attrs.get(key, dflt)` on a Python dict. -/
def getAttr (attrs : Record) (key dflt : String) : String :=
  (attrs.lookup key).getD dflt

/-- `key in attrs` on a Python dict. -/
def hasAttr (attrs : Record) (key : String) : Bool :=
  (attrs.lookup key).isSome

/-- Value of a list of decimal digit characters. -/
def digitsToNat (cs : List Char) : Nat :=
  cs.foldl (fun a c => a * 10 + (c.toNat - 48)) 0

/-- Strip leading and trailing whitespace from a character list (the
stripping `int()` applies to its argument). -/
def pyStrip (cs : List Char) : List Char :=
  ((cs.dropWhile Char.isWhitespace).reverse.dropWhile Char.isWhitespace).reverse

/-- Python `int(s)`: optional surrounding whitespace, optional sign, then one
or more decimal digits; anything else raises `ValueError`. -/
def pyParseInt (s : String) : Except String Int :=
  let cs := pyStrip s.data
  match cs with
  | [] => .error ("invalid literal for int: " ++ s)
  | c :: rest =>
    let sign : Int := if c = '-' then -1 else 1
    let ds := if c = '-' ∨ c = '+' then rest else c :: rest
    if ds ≠ [] ∧ ds.all Char.isDigit then .ok (sign * digitsToNat ds)
    else .error ("invalid literal for int: " ++ s)

/-- `extract_year_from_date` (`parser.py` lines 15-24, identical body at
`PostFilter._extract_year_from_date` in `parser2.py` lines 111-120):
`re.match(r'^(\d{4})', s)` succeeds exactly when the first four characters
exist and are digits, and then `int` of the four captured digits is returned;
otherwise the function returns the default year `0`. -/
def extract_year_from_date (s : String) : Int :=
  match s.data with
  | a :: b :: c :: d :: _ =>
    if a.isDigit ∧ b.isDigit ∧ c.isDigit ∧ d.isDigit then
      (digitsToNat [a, b, c, d] : Int)
    else 0
  | _ => 0

/-- Left-to-right scanner implementing `re.findall(r'<([^>]+)>', s)` over the
character list of `s`: the list of captured groups of the non-overlapping
leftmost matches, in order.  A match is a `'<'`, one or more non-`'>'`
characters, then `'>'`; since `[^>]` stops exactly at the next `'>'`, the
scanner state is `none` (outside a candidate match) or `some tok` (inside one,
having read `'<'` then the characters of `tok`). -/
def tagScan : List Char → Option (List Char) → List (List Char)
  | [], _ => []
  | c :: rest, none =>
    if c = '<' then tagScan rest (some []) else tagScan rest none
  | c :: rest, some tok =>
    if c = '>' then
      if tok = [] then tagScan rest none else tok :: tagScan rest none
    else tagScan rest (some (tok ++ [c]))

def findTagTokens (cs : List Char) : List (List Char) :=
  tagScan cs none

namespace PostFilter

/-- `PostFilter._extract_tags` (`parser2.py` lines 102-109): extract the set
of tags from a `<tag1><tag2>...` string (empty string gives the empty set). -/
def extract_tags (tags_text : String) : Finset String :=
  if tags_text = "" then ∅
  else ((findTagTokens tags_text.data).map fun cs => String.mk cs).toFinset

end PostFilter

/-- Filter configuration (`PostFilter.__init__`, `parser2.py` lines 20-34),
after the constructor has applied the Python-truthiness defaults. -/
structure PostFilter where
  min_score : Option Int
  max_score : Option Int
  post_types : List String
  tags_include : Finset String
  tags_exclude : Finset String
  min_answers : Option Int
  has_accepted_answer : Option Bool
  min_views : Option Int
  min_year : Option Int
  max_year : Option Int
  specific_years : Finset Int
deriving DecidableEq

/-- `PostFilter.__init__` (`parser2.py` lines 20-34): every argument defaults
to `None`; `post_types or ['1', '2']` replaces a `None` or empty list with
`['1', '2']`, and `set(x) if x else set()` maps a falsy tag or year list to
the empty set. -/
def mkPostFilter (min_score max_score : Option Int) (post_types : Option (List String))
    (tags_include tags_exclude : Option (List String)) (min_answers : Option Int)
    (has_accepted_answer : Option Bool) (min_views : Option Int)
    (min_year max_year : Option Int) (specific_years : Option (List Int)) : PostFilter where
  min_score := min_score
  max_score := max_score
  post_types :=
    match post_types with
    | none => ["1", "2"]
    | some [] => ["1", "2"]
    | some l => l
  tags_include :=
    match tags_include with
    | none => ∅
    | some [] => ∅
    | some l => l.toFinset
  tags_exclude :=
    match tags_exclude with
    | none => ∅
    | some [] => ∅
    | some l => l.toFinset
  min_answers := min_answers
  has_accepted_answer := has_accepted_answer
  min_views := min_views
  min_year := min_year
  max_year := max_year
  specific_years :=
    match specific_years with
    | none => ∅
    | some [] => ∅
    | some l => l.toFinset

/-- `lim is not None and v < lim`. -/
def belowMin (lim : Option Int) (v : Int) : Bool :=
  match lim with
  | some m => decide (v < m)
  | none => false

/-- `lim is not None and v > lim`. -/
def aboveMax (lim : Option Int) (v : Int) : Bool :=
  match lim with
  | some m => decide (v > m)
  | none => false

/-- `PostFilter.should_include_post` (`parser2.py` lines 36-100).  The chain
of early `return False` checks is modelled as nested conditionals; the calls
to `int(...)` are fallible (`Except`), and each is evaluated exactly under the
condition guarding it in the source.  The view-count, answer-count,
accepted-answer and tag stages apply only to questions (`post_type == '1'`);
the year stage is evaluated only when some year constraint is configured and
`CreationDate` is non-empty. -/
def should_include_post (f : PostFilter) (post_attrs : Record) : Except String Bool :=
  -- Filter by post type
  let post_type := getAttr post_attrs "PostTypeId" "1"
  if ¬ f.post_types.contains post_type then .ok false else
  -- Filter by score: `int(post_attrs.get('Score', '0'))` may raise ValueError
  match pyParseInt (getAttr post_attrs "Score" "0") with
  | .error e => .error e
  | .ok score =>
  if belowMin f.min_score score then .ok false else
  if aboveMax f.max_score score then .ok false else
  -- Filter by view count (only for questions); parsed only when examined
  match (if post_type = "1" ∧ f.min_views.isSome
         then pyParseInt (getAttr post_attrs "ViewCount" "0") else .ok 0) with
  | .error e => .error e
  | .ok views =>
  if post_type = "1" ∧ belowMin f.min_views views then .ok false else
  -- Filter by answer count (only for questions)
  match (if post_type = "1" ∧ f.min_answers.isSome
         then pyParseInt (getAttr post_attrs "AnswerCount" "0") else .ok 0) with
  | .error e => .error e
  | .ok answer_count =>
  if post_type = "1" ∧ belowMin f.min_answers answer_count then .ok false else
  -- Filter by accepted answer (only for questions)
  let has_accepted := hasAttr post_attrs "AcceptedAnswerId"
  if post_type = "1" ∧ ((f.has_accepted_answer = some true ∧ has_accepted = false) ∨
      (f.has_accepted_answer = some false ∧ has_accepted = true)) then .ok false else
  -- Filter by tags (only for questions)
  let post_tags := PostFilter.extract_tags (getAttr post_attrs "Tags" "")
  if post_type = "1" ∧ f.tags_include ≠ ∅ ∧ f.tags_include ∩ post_tags = ∅ then .ok false else
  if post_type = "1" ∧ f.tags_exclude ≠ ∅ ∧ f.tags_exclude ∩ post_tags ≠ ∅ then .ok false else
  -- Filter by year
  if f.min_year.isSome ∨ f.max_year.isSome ∨ f.specific_years ≠ ∅ then
    let creation_date := getAttr post_attrs "CreationDate" ""
    if creation_date ≠ "" then
      let post_year := extract_year_from_date creation_date
      if f.specific_years ≠ ∅ ∧ post_year ∉ f.specific_years then .ok false else
      if belowMin f.min_year post_year then .ok false else
      if aboveMax f.max_year post_year then .ok false else
      .ok true
    else .ok true
  else .ok true

/-- `should_include_post_by_year` (`parser.py` lines 27-48): the year-only
filter of the simple pipeline.  Never raises (it parses no attribute). -/
def should_include_post_by_year (post_attrs : Record) (min_year max_year : Option Int)
    (specific_years : Finset Int) : Bool :=
  if min_year = none ∧ max_year = none ∧ specific_years = ∅ then true
  else
    let creation_date := getAttr post_attrs "CreationDate" ""
    if creation_date = "" then true
    else
      let post_year := extract_year_from_date creation_date
      if specific_years ≠ ∅ ∧ post_year ∉ specific_years then false
      else if belowMin min_year post_year then false
      else if aboveMax max_year post_year then false
      else true

/-- Body of the `for event, elem in context` loop of
`StreamingPostExtractor.extract_from_file` (`parser2.py` lines 243-266),
carrying the loop state: accepted posts so far, `extracted_count`, and
`total_processed`.  On each row-end event `total_processed` is incremented,
then the filter runs (a raised `ValueError` propagates and aborts the scan);
an accepted post is appended and the loop breaks as soon as
`extracted_count >= target_count`. -/
def extractLoop (f : PostFilter) (target_count : Nat) :
    List Record → List Record → Nat → Nat → Except String (List Record × Nat)
  | [], posts, _extracted, total => .ok (posts, total)
  | r :: rest, posts, extracted, total =>
    match should_include_post f r with
    | .error e => .error e
    | .ok true =>
      if extracted + 1 ≥ target_count then .ok (posts ++ [r], total + 1)
      else extractLoop f target_count rest (posts ++ [r]) (extracted + 1) (total + 1)
    | .ok false => extractLoop f target_count rest posts extracted (total + 1)

/-- `StreamingPostExtractor.extract_from_file` (`parser2.py` lines 232-268)
over the stream of `<row/>` records, returning `self.posts` together with the
final `total_processed` counter (loop state starts at `[]`, `0`, `0`). -/
def extract_from_file (f : PostFilter) (target_count : Nat) (rows : List Record) :
    Except String (List Record × Nat) :=
  extractLoop f target_count rows [] 0 0

/-- Body of the row loop of `extract_posts_streaming` (`parser.py` lines
73-93): rows are examined only while `extracted_count < num_posts`; an
accepted row is appended and the loop breaks once `extracted_count >=
num_posts`; rejected rows (and rows after the guard fails) are just cleared. -/
def extractYearLoop (num_posts : Nat) (min_year max_year : Option Int)
    (specific_years : Finset Int) : List Record → List Record → Nat → List Record
  | [], posts, _extracted => posts
  | r :: rest, posts, extracted =>
    if extracted < num_posts then
      if should_include_post_by_year r min_year max_year specific_years then
        if extracted + 1 ≥ num_posts then posts ++ [r]
        else extractYearLoop num_posts min_year max_year specific_years rest
          (posts ++ [r]) (extracted + 1)
      else extractYearLoop num_posts min_year max_year specific_years rest posts extracted
    else extractYearLoop num_posts min_year max_year specific_years rest posts extracted

/-- `extract_posts_streaming` (`parser.py` lines 51-95): the simple pipeline's
extraction over the stream of records. -/
def extract_posts_streaming (input_rows : List Record) (num_posts : Nat)
    (min_year max_year : Option Int) (specific_years : Finset Int) : List Record :=
  extractYearLoop num_posts min_year max_year specific_years input_rows [] 0

/-- One `<Topic>` element of the Topics output: its `number` label and the
text of its `Title`, `Question` and `Tags` children. -/
structure Topic where
  number : String
  title : String
  question : String
  tags : String
deriving DecidableEq

/-- `re.sub(r'\s+', ' ', content)`: collapse each maximal run of whitespace
characters to a single space. -/
def squeezeWs : List Char → List Char
  | [] => []
  | [c] => [if c.isWhitespace then ' ' else c]
  | a :: b :: rest =>
    if a.isWhitespace ∧ b.isWhitespace then squeezeWs (b :: rest)
    else (if a.isWhitespace then ' ' else a) :: squeezeWs (b :: rest)

/-- `TopicsFormatter._process_html_content` (`parser2.py` lines 178-190):
empty content stays empty; otherwise whitespace runs collapse to one space
and the result is stripped. -/
def process_html_content (content : String) : String :=
  if content = "" then ""
  else String.mk (pyStrip (squeezeWs content.data))

/-- `TopicsFormatter._extract_clean_tags` (`parser2.py` lines 192-201):
`re.findall(r'<([^>]+)>', tags_text)` joined with commas. -/
def extract_clean_tags (tags_text : String) : String :=
  if tags_text = "" then ""
  else String.intercalate "," ((findTagTokens tags_text.data).map fun cs => String.mk cs)

/-- `TopicsFormatter._create_topic_element` (`parser2.py` lines 155-176):
builds one Topic from a post and the current value of the mutable
`self.topic_counter`, returning the element and the incremented counter. -/
def create_topic_element (topic_counter : Nat) (post : Record) : Topic × Nat :=
  ({ number := "A." ++ toString topic_counter,
     title := process_html_content (getAttr post "Title" "Untitled Question"),
     question := process_html_content (getAttr post "Body" ""),
     tags := extract_clean_tags (getAttr post "Tags" "") }, topic_counter + 1)

/-- `TopicsFormatter.format_posts_to_topics_xml` (`parser2.py` lines
129-153), up to serialization: keep only the questions
(`p.get('PostTypeId', '1') == '1'`), then build one Topic per question in
order, threading `topic_counter` (initially 1) through
`_create_topic_element`. -/
def format_posts_to_topics (posts : List Record) : List Topic :=
  let questions := posts.filter fun p => getAttr p "PostTypeId" "1" == "1"
  (questions.foldl (fun acc p =>
      let t := create_topic_element acc.2 p
      (acc.1 ++ [t.1], t.2)) (([] : List Topic), 1)).1

/-- Observable outcome of a run of `parser2.py`'s `main` after argument
validation. -/
inductive RunResult where
  | parseFailure (msg : String) : RunResult
  | exitFailure : RunResult
  | wrote (topics : List Topic) : RunResult
deriving DecidableEq

/-- The tail of `main` in `parser2.py` (lines 506-535): run extraction; when
`posts` is empty, print a message and `sys.exit(1)` without ever reaching the
formatting/writing step (`exitFailure` carries no output); otherwise format
the accepted posts and write the Topics XML (`wrote`). -/
def main_run (f : PostFilter) (num_posts : Nat) (rows : List Record) : RunResult :=
  match extract_from_file f num_posts rows with
  | .error e => .parseFailure e
  | .ok (posts, _) =>
    if posts.isEmpty then .exitFailure
    else .wrote (format_posts_to_topics posts)

/-- The tail of `main` in `parser.py` (lines 261-282): `none` models
`sys.exit(1)` with no output file written; `some posts` models reaching
`create_output_xml` with the extracted posts. -/
def main_run_simple (num_posts : Nat) (min_year max_year : Option Int)
    (specific_years : Finset Int) (rows : List Record) : Option (List Record) :=
  let posts := extract_posts_streaming rows num_posts min_year max_year specific_years
  if posts.isEmpty then none else some posts

/-- A record is accepted by the full filter when `should_include_post`
returns `True` (a raised `ValueError` is not an acceptance). -/
def acceptsB (f : PostFilter) (r : Record) : Bool :=
  match should_include_post f r with
  | .ok true => true
  | _ => false

/-- 1-based position of the `k`-th record of the list satisfying `p`
(`some 0` when `k = 0`; `none` when fewer than `k` records satisfy `p`). -/
def kthAcceptPos (p : Record → Bool) : Nat → List Record → Option Nat
  | 0, _ => some 0
  | _ + 1, [] => none
  | k + 1, r :: rest =>
    if p r then (kthAcceptPos p k rest).map (· + 1)
    else (kthAcceptPos p (k + 1) rest).map (· + 1)

/-- The string's first four characters exist and are ASCII digits. -/
def startsWithFourDigits (s : String) : Bool :=
  match s.data with
  | a :: b :: c :: d :: _ => a.isDigit && b.isDigit && c.isDigit && d.isDigit
  | _ => false

/-- The string starts with exactly four ASCII digits: four digits followed by
the end of the string or a non-digit character. -/
def startsWithExactlyFourDigits (s : String) : Bool :=
  startsWithFourDigits s &&
    (match s.data with
     | _ :: _ :: _ :: _ :: e :: _ => !e.isDigit
     | _ => true)

/-- The string `<tag1><tag2>...<tagN>` built from a list of tag tokens. -/
def mkTagStr (tags : List String) : String :=
  tags.foldr (fun t acc => "<" ++ t ++ ">" ++ acc) ""

theorem should_eq_ok_true_of_acceptsB {f : PostFilter} {r : Record}
    (h : acceptsB f r = true) : should_include_post f r = .ok true := by
  unfold acceptsB at h
  cases hs : should_include_post f r with
  | ok b => cases b <;> simp [hs] at h ⊢
  | error e => simp [hs] at h

theorem should_eq_ok_false_of_not_acceptsB {f : PostFilter} {r : Record}
    (hok : (should_include_post f r).isOk) (h : acceptsB f r = false) :
    should_include_post f r = .ok false := by
  unfold acceptsB at h
  cases hs : should_include_post f r with
  | ok b => cases b <;> simp [hs] at h ⊢
  | error e => simp [hs, Except.isOk, Except.toBool] at hok

theorem kthAcceptPos_zero (p : Record → Bool) (rs : List Record) :
    kthAcceptPos p 0 rs = some 0 := by
  unfold kthAcceptPos
  rfl

/-- The `k`-th acceptor of `rs` lies within the first `M` records, so the
position is unchanged on the length-`M` front of the list. -/
theorem kthAcceptPos_take {p : Record → Bool} :
    ∀ {rs : List Record} {k M : Nat}, kthAcceptPos p k rs = some M →
      kthAcceptPos p k (rs.take M) = some M := by
  intro rs
  induction rs with
  | nil =>
    intro k M h
    cases k with
    | zero =>
      rw [kthAcceptPos_zero] at h
      cases h
      simpa using kthAcceptPos_zero p []
    | succ k => simp [kthAcceptPos] at h
  | cons r rest ih =>
    intro k M h
    cases k with
    | zero =>
      rw [kthAcceptPos_zero] at h
      cases h
      simpa using kthAcceptPos_zero p ((r :: rest).take 0)
    | succ k =>
      rw [kthAcceptPos] at h
      cases hp : p r with
      | true =>
        rw [hp, if_pos rfl] at h
        cases hx : kthAcceptPos p k rest with
        | none => rw [hx] at h; simp at h
        | some M' =>
          rw [hx] at h
          simp only [Option.map_some', Option.some.injEq] at h
          subst h
          rw [List.take_succ_cons, kthAcceptPos, hp, if_pos rfl, ih hx]
          rfl
      | false =>
        rw [hp] at h
        simp only [Bool.false_eq_true, if_false] at h
        cases hx : kthAcceptPos p (k + 1) rest with
        | none => rw [hx] at h; simp at h
        | some M' =>
          rw [hx] at h
          simp only [Option.map_some', Option.some.injEq] at h
          subst h
          rw [List.take_succ_cons, kthAcceptPos, hp]
          simp only [Bool.false_eq_true, if_false, ih hx]
          rfl
/-- When the loop still needs `target - extracted > 0` acceptances and the
`(target - extracted)`-th acceptor of the remaining stream sits at 1-based
position `M`, the loop stops exactly there: it appends the acceptors of the
length-`M` front and has processed exactly `M` further records. -/
theorem extractLoop_reach {f : PostFilter} {target : Nat} :
    ∀ {rs posts : List Record} {extracted total M : Nat},
      extracted < target →
      (∀ r ∈ rs, (should_include_post f r).isOk) →
      kthAcceptPos (acceptsB f) (target - extracted) rs = some M →
      extractLoop f target rs posts extracted total =
        .ok (posts ++ (rs.take M).filter (acceptsB f), total + M) := by
  intro rs
  induction rs with
  | nil =>
    intro posts extracted total M hlt _ hk
    obtain ⟨d, hd⟩ : ∃ d, target - extracted = d + 1 := ⟨target - extracted - 1, by omega⟩
    rw [hd] at hk
    simp [kthAcceptPos] at hk
  | cons r rest ih =>
    intro posts extracted total M hlt hok hk
    obtain ⟨d, hd⟩ : ∃ d, target - extracted = d + 1 := ⟨target - extracted - 1, by omega⟩
    rw [hd, kthAcceptPos] at hk
    have hokr : (should_include_post f r).isOk := hok r (by simp)
    have hokrest : ∀ x ∈ rest, (should_include_post f x).isOk := fun x hx => hok x (by simp [hx])
    cases hp : acceptsB f r with
    | true =>
      rw [hp, if_pos rfl] at hk
      have hs := should_eq_ok_true_of_acceptsB hp
      simp only [extractLoop, hs]
      by_cases hreach : extracted + 1 ≥ target
      · have hd0 : d = 0 := by omega
        subst hd0
        rw [kthAcceptPos_zero] at hk
        simp only [Option.map_some', Option.some.injEq] at hk
        subst hk
        rw [if_pos hreach, List.take_succ_cons, List.take_zero,
          List.filter_cons_of_pos hp, List.filter_nil]
      · rw [if_neg hreach]
        cases hx : kthAcceptPos (acceptsB f) d rest with
        | none => rw [hx] at hk; simp at hk
        | some M' =>
          rw [hx] at hk
          simp only [Option.map_some', Option.some.injEq] at hk
          subst hk
          have hk' : kthAcceptPos (acceptsB f) (target - (extracted + 1)) rest = some M' := by
            have : target - (extracted + 1) = d := by omega
            rw [this]; exact hx
          rw [ih (by omega) hokrest hk', List.take_succ_cons, List.filter_cons_of_pos hp]
          simp only [Except.ok.injEq, Prod.mk.injEq]
          constructor
          · simp
          · omega
    | false =>
      have hs := should_eq_ok_false_of_not_acceptsB hokr hp
      simp only [extractLoop, hs]
      rw [hp] at hk
      simp only [Bool.false_eq_true, if_false] at hk
      cases hx : kthAcceptPos (acceptsB f) (d + 1) rest with
      | none => rw [hx] at hk; simp at hk
      | some M' =>
        rw [hx] at hk
        simp only [Option.map_some', Option.some.injEq] at hk
        subst hk
        have hk' : kthAcceptPos (acceptsB f) (target - extracted) rest = some M' := by
          rw [hd]; exact hx
        rw [ih hlt hokrest hk', List.take_succ_cons, List.filter_cons_of_neg (by simp [hp])]
        simp only [Except.ok.injEq, Prod.mk.injEq]
        constructor
        · trivial
        · omega

/-- Whenever the loop returns without raising, the accepted list it built is
exactly the filter of the processed front of the stream, appended to the
accumulator: the loop only ever appends. -/
theorem extractLoop_posts_spec {f : PostFilter} {target : Nat} :
    ∀ {rs posts : List Record} {extracted total : Nat} {posts' : List Record} {total' : Nat},
      (∀ r ∈ rs, (should_include_post f r).isOk) →
      extractLoop f target rs posts extracted total = .ok (posts', total') →
      total ≤ total' ∧
        posts' = posts ++ (rs.take (total' - total)).filter (acceptsB f) := by
  intro rs
  induction rs with
  | nil =>
    intro posts extracted total posts' total' _ h
    simp only [extractLoop, Except.ok.injEq, Prod.mk.injEq] at h
    obtain ⟨h1, h2⟩ := h
    subst h1
    subst h2
    simp
  | cons r rest ih =>
    intro posts extracted total posts' total' hok h
    have hokr : (should_include_post f r).isOk := hok r (by simp)
    have hokrest : ∀ x ∈ rest, (should_include_post f x).isOk := fun x hx => hok x (by simp [hx])
    cases hp : acceptsB f r with
    | true =>
      have hs := should_eq_ok_true_of_acceptsB hp
      simp only [extractLoop, hs] at h
      by_cases hreach : extracted + 1 ≥ target
      · rw [if_pos hreach] at h
        simp only [Except.ok.injEq, Prod.mk.injEq] at h
        obtain ⟨h1, h2⟩ := h
        subst h1
        subst h2
        refine ⟨by omega, ?_⟩
        have h1 : total + 1 - total = 1 := by omega
        rw [h1, List.take_succ_cons, List.take_zero, List.filter_cons_of_pos hp,
          List.filter_nil]
      · rw [if_neg hreach] at h
        obtain ⟨hle, hps⟩ := ih hokrest h
        refine ⟨by omega, ?_⟩
        rw [hps]
        have h1 : total' - total = (total' - (total + 1)) + 1 := by omega
        rw [h1, List.take_succ_cons, List.filter_cons_of_pos hp]
        simp
    | false =>
      have hs := should_eq_ok_false_of_not_acceptsB hokr hp
      simp only [extractLoop, hs] at h
      obtain ⟨hle, hps⟩ := ih hokrest h
      refine ⟨by omega, ?_⟩
      rw [hps]
      have h1 : total' - total = (total' - (total + 1)) + 1 := by omega
      rw [h1, List.take_succ_cons, List.filter_cons_of_neg (by simp [hp])]

/-- When every record of the stream evaluates without raising, the loop
returns without raising. -/
theorem extractLoop_ok {f : PostFilter} {target : Nat} :
    ∀ {rs posts : List Record} {extracted total : Nat},
      (∀ r ∈ rs, (should_include_post f r).isOk) →
      ∃ posts' total', extractLoop f target rs posts extracted total = .ok (posts', total') := by
  intro rs
  induction rs with
  | nil => intro posts extracted total _; exact ⟨posts, total, rfl⟩
  | cons r rest ih =>
    intro posts extracted total hok
    have hokr : (should_include_post f r).isOk := hok r (by simp)
    have hokrest : ∀ x ∈ rest, (should_include_post f x).isOk := fun x hx => hok x (by simp [hx])
    cases hp : acceptsB f r with
    | true =>
      have hs := should_eq_ok_true_of_acceptsB hp
      simp only [extractLoop, hs]
      by_cases hreach : extracted + 1 ≥ target
      · rw [if_pos hreach]; exact ⟨_, _, rfl⟩
      · rw [if_neg hreach]; exact ih hokrest
    | false =>
      have hs := should_eq_ok_false_of_not_acceptsB hokr hp
      simp only [extractLoop, hs]
      exact ih hokrest

/-- Analogue of `extractLoop_reach` for the simple pipeline's loop. -/
theorem extractYearLoop_reach {num : Nat} {mi ma : Option Int} {ys : Finset Int} :
    ∀ {rs posts : List Record} {extracted M : Nat},
      extracted < num →
      kthAcceptPos (fun r => should_include_post_by_year r mi ma ys) (num - extracted) rs =
        some M →
      extractYearLoop num mi ma ys rs posts extracted =
        posts ++ (rs.take M).filter fun r => should_include_post_by_year r mi ma ys := by
  intro rs
  induction rs with
  | nil =>
    intro posts extracted M hlt hk
    obtain ⟨d, hd⟩ : ∃ d, num - extracted = d + 1 := ⟨num - extracted - 1, by omega⟩
    rw [hd] at hk
    simp [kthAcceptPos] at hk
  | cons r rest ih =>
    intro posts extracted M hlt hk
    obtain ⟨d, hd⟩ : ∃ d, num - extracted = d + 1 := ⟨num - extracted - 1, by omega⟩
    rw [hd] at hk
    simp only [kthAcceptPos] at hk
    simp only [extractYearLoop, if_pos hlt]
    cases hp : should_include_post_by_year r mi ma ys with
    | true =>
      rw [if_pos hp] at hk
      rw [if_pos rfl]
      by_cases hreach : extracted + 1 ≥ num
      · have hd0 : d = 0 := by omega
        subst hd0
        rw [kthAcceptPos_zero] at hk
        simp only [Option.map_some', Option.some.injEq] at hk
        subst hk
        rw [if_pos hreach, List.take_succ_cons, List.take_zero]
        simp only [List.filter_cons, List.filter_nil]
        rw [if_pos hp]
      · rw [if_neg hreach]
        cases hx : kthAcceptPos (fun r => should_include_post_by_year r mi ma ys) d rest with
        | none => rw [hx] at hk; simp at hk
        | some M' =>
          rw [hx] at hk
          simp only [Option.map_some', Option.some.injEq] at hk
          subst hk
          have hk' : kthAcceptPos (fun r => should_include_post_by_year r mi ma ys)
              (num - (extracted + 1)) rest = some M' := by
            have h1 : num - (extracted + 1) = d := by omega
            rw [h1]; exact hx
          rw [ih (by omega) hk', List.take_succ_cons]
          simp only [List.filter_cons]
          rw [if_pos hp]
          simp
    | false =>
      rw [if_neg (by simp [hp])] at hk
      rw [if_neg (by simp)]
      cases hx : kthAcceptPos (fun r => should_include_post_by_year r mi ma ys) (d + 1) rest with
      | none => rw [hx] at hk; simp at hk
      | some M' =>
        rw [hx] at hk
        simp only [Option.map_some', Option.some.injEq] at hk
        subst hk
        have hk' : kthAcceptPos (fun r => should_include_post_by_year r mi ma ys)
            (num - extracted) rest = some M' := by
          rw [hd]; exact hx
        rw [ih hlt hk', List.take_succ_cons]
        simp only [List.filter_cons]
        rw [if_neg (by simp [hp])]

/-- The simple loop only appends, and what it appends is a sublist of the
stream's accepted records (in stream order). -/
theorem extractYearLoop_sublist {num : Nat} {mi ma : Option Int} {ys : Finset Int} :
    ∀ {rs posts : List Record} {extracted : Nat},
      ∃ F, extractYearLoop num mi ma ys rs posts extracted = posts ++ F ∧
        F.Sublist (rs.filter fun r => should_include_post_by_year r mi ma ys) := by
  intro rs
  induction rs with
  | nil => intro posts extracted; exact ⟨[], by simp [extractYearLoop], by simp⟩
  | cons r rest ih =>
    intro posts extracted
    have htail : (rest.filter fun x => should_include_post_by_year x mi ma ys).Sublist
        ((r :: rest).filter fun x => should_include_post_by_year x mi ma ys) := by
      rw [List.filter_cons]
      split
      · exact List.sublist_cons_self _ _
      · exact List.Sublist.refl _
    simp only [extractYearLoop]
    by_cases hg : extracted < num
    · rw [if_pos hg]
      cases hp : should_include_post_by_year r mi ma ys with
      | true =>
        rw [if_pos rfl]
        by_cases hreach : extracted + 1 ≥ num
        · rw [if_pos hreach]
          refine ⟨[r], rfl, ?_⟩
          simp only [List.filter_cons]
          rw [if_pos hp]
          exact List.cons_sublist_cons.mpr (List.nil_sublist _)
        · rw [if_neg hreach]
          obtain ⟨F, hF, hFs⟩ := @ih (posts ++ [r]) (extracted + 1)
          refine ⟨r :: F, by rw [hF]; simp, ?_⟩
          simp only [List.filter_cons]
          rw [if_pos hp]
          exact List.cons_sublist_cons.mpr hFs
      | false =>
        rw [if_neg (by simp)]
        obtain ⟨F, hF, hFs⟩ := @ih posts extracted
        exact ⟨F, hF, hFs.trans htail⟩
    · rw [if_neg hg]
      obtain ⟨F, hF, hFs⟩ := @ih posts extracted
      exact ⟨F, hF, hFs.trans htail⟩

/-- C1: the accept predicate does NOT degrade a malformed numeric attribute
to the default 0: `should_include_post` calls `int(post_attrs.get('Score',
'0'))` with no exception handler, so a record whose `Score` is the
non-numeric string `"abc"` raises `ValueError` — even under the default
filter configuration with no score bounds at all — and the raised error
propagates out of `extract_from_file`, aborting the scan instead of
continuing it. -/
theorem c1_malformed_score_raises
    : should_include_post
        (mkPostFilter none none none none none none none none none none none)
        [("PostTypeId", "1"), ("Score", "abc")] =
        .error "invalid literal for int: abc" ∧
      extract_from_file
        (mkPostFilter none none none none none none none none none none none) 1
        [[("PostTypeId", "1"), ("Score", "abc")]] =
        .error "invalid literal for int: abc" := by
  decide

/-- C3: on the 5-record stream with `PostTypeId` values `[1,2,1,1,2]` and
`Score` values `[10,1,-3,7,2]`, with min_score 0, allowed post types
`{"1"}` and target count 2, extraction accepts exactly records 1 and 4 in
that order, the predicate rejects records 2, 3 and 5, and exactly 4 records
are scanned in total. -/
theorem c3_concrete_scenario
    : extract_from_file
        (mkPostFilter (some 0) none (some ["1"]) none none none none none none none none) 2
        [[("PostTypeId", "1"), ("Score", "10")],
         [("PostTypeId", "2"), ("Score", "1")],
         [("PostTypeId", "1"), ("Score", "-3")],
         [("PostTypeId", "1"), ("Score", "7")],
         [("PostTypeId", "2"), ("Score", "2")]] =
        .ok ([[("PostTypeId", "1"), ("Score", "10")],
              [("PostTypeId", "1"), ("Score", "7")]], 4) ∧
      acceptsB (mkPostFilter (some 0) none (some ["1"]) none none none none none none none none)
        [("PostTypeId", "1"), ("Score", "10")] = true ∧
      acceptsB (mkPostFilter (some 0) none (some ["1"]) none none none none none none none none)
        [("PostTypeId", "2"), ("Score", "1")] = false ∧
      acceptsB (mkPostFilter (some 0) none (some ["1"]) none none none none none none none none)
        [("PostTypeId", "1"), ("Score", "-3")] = false ∧
      acceptsB (mkPostFilter (some 0) none (some ["1"]) none none none none none none none none)
        [("PostTypeId", "1"), ("Score", "7")] = true ∧
      acceptsB (mkPostFilter (some 0) none (some ["1"]) none none none none none none none none)
        [("PostTypeId", "2"), ("Score", "2")] = false := by
  decide

/-- C10: with no post-type constraint configured (all constructor arguments
`None`), the allowed post-type set defaults to `["1", "2"]`, so a record
whose `PostTypeId` is `"3"` is rejected by the very first check even though
every other constraint is unset. -/
theorem c10_default_post_types (attrs : Record)
    (h : getAttr attrs "PostTypeId" "1" = "3") :
    (mkPostFilter none none none none none none none none none none none).post_types =
        ["1", "2"] ∧
      should_include_post
        (mkPostFilter none none none none none none none none none none none) attrs =
        .ok false := by
  refine ⟨rfl, ?_⟩
  simp only [should_include_post, h]
  rw [if_pos (by decide)]

theorem c10_witness
    : should_include_post
        (mkPostFilter none none none none none none none none none none none)
        [("PostTypeId", "3")] = .ok false :=
  (c10_default_post_types [("PostTypeId", "3")] (by decide)).2

/-- C4: the year extractor returns the integer value of the first four
characters whenever the string starts with exactly four ASCII digits (four
digits followed by the end of the string or a non-digit), and returns 0 for
every string that does not begin with four digits; being a total function of
the string, it never raises. -/
theorem c4_year_extractor_contract (s : String) :
    (startsWithExactlyFourDigits s = true →
       extract_year_from_date s = (digitsToNat (s.data.take 4) : Int)) ∧
      (startsWithFourDigits s = false → extract_year_from_date s = 0) := by
  constructor
  · intro h
    have h4 : startsWithFourDigits s = true := by
      simp only [startsWithExactlyFourDigits, Bool.and_eq_true] at h
      exact h.1
    rcases hcs : s.data with _ | ⟨a, _ | ⟨b, _ | ⟨c, _ | ⟨d, rest⟩⟩⟩⟩ <;>
        simp only [startsWithFourDigits, hcs] at h4 <;>
        try exact absurd h4 Bool.false_ne_true
    simp only [Bool.and_eq_true] at h4
    obtain ⟨⟨⟨ha, hb⟩, hc⟩, hd⟩ := h4
    simp only [extract_year_from_date, hcs]
    rw [if_pos ⟨ha, hb, hc, hd⟩]
    rfl
  · intro h
    rcases hcs : s.data with _ | ⟨a, _ | ⟨b, _ | ⟨c, _ | ⟨d, rest⟩⟩⟩⟩ <;>
      simp only [extract_year_from_date, hcs]
    have hnot : ¬(a.isDigit ∧ b.isDigit ∧ c.isDigit ∧ d.isDigit) := by
      rintro ⟨ha, hb, hc, hd⟩
      simp only [startsWithFourDigits, hcs, ha, hb, hc, hd, Bool.and_self] at h
      exact absurd h.symm Bool.false_ne_true
    rw [if_neg hnot]

theorem c4_witness
    : extract_year_from_date "2015-07-14T19:35:44.557" = 2015 ∧
      extract_year_from_date "July 2015" = 0 := by
  constructor
  · have h := (c4_year_extractor_contract "2015-07-14T19:35:44.557").1 (by decide)
    rw [h]; decide
  · exact (c4_year_extractor_contract "July 2015").2 (by decide)

/-- C8: for a record whose `CreationDate` attribute is absent or empty, the
year-filtering stage is skipped entirely: the full filter's verdict is the
same as with all year constraints removed, and the simple pipeline's
year-only filter accepts the record outright, whatever the configured year
range or specific-year set. -/
theorem c8_empty_creation_date_skips_year_filtering
    (f : PostFilter) (attrs : Record) (mi ma : Option Int) (ys : Finset Int)
    (h : getAttr attrs "CreationDate" "" = "") :
    should_include_post f attrs =
        should_include_post
          { f with min_year := none, max_year := none, specific_years := ∅ } attrs ∧
      should_include_post_by_year attrs mi ma ys = true := by
  constructor
  · simp [should_include_post, h]
  · simp [should_include_post_by_year, h]

theorem c8_witness
    : should_include_post
        (mkPostFilter none none none none none none none none (some 2015) none none)
        [("PostTypeId", "2")] =
        should_include_post
          { mkPostFilter none none none none none none none none (some 2015) none none with
            min_year := none, max_year := none, specific_years := ∅ }
          [("PostTypeId", "2")] ∧
      should_include_post_by_year [("PostTypeId", "2")] (some 2015) (some 2020)
        ({2016} : Finset Int) = true :=
  c8_empty_creation_date_skips_year_filtering
    (mkPostFilter none none none none none none none none (some 2015) none none)
    [("PostTypeId", "2")] (some 2015) (some 2020) ({2016} : Finset Int) (by decide)

/-- Running the scanner from inside a candidate match: with no `'>'` in `t`,
the characters of `t` are all absorbed into the token, which is emitted when
the closing `'>'` arrives (unless it is still empty). -/
theorem tagScan_run (rest : List Char) :
    ∀ (t tok : List Char), '>' ∉ t →
      tagScan (t ++ '>' :: rest) (some tok) =
        (if tok ++ t = [] then tagScan rest none else (tok ++ t) :: tagScan rest none) := by
  intro t
  induction t with
  | nil =>
    intro tok _
    simp only [List.nil_append, tagScan, List.append_nil, if_pos rfl, if_true]
  | cons c t ihc =>
    intro tok h
    have hc : ¬(c = '>') := fun hh => h (by rw [hh]; exact List.mem_cons_self _ _)
    simp only [List.cons_append, tagScan, List.append_eq]
    rw [if_neg hc]
    rw [ihc (tok ++ [c]) (fun hx => h (List.mem_cons_of_mem _ hx))]
    simp [List.append_assoc]

/-- A well-formed leading tag `<t>` is matched and captured whole. -/
theorem findTagTokens_cons_tag (t rest : List Char) (hne : t ≠ []) (hgt : '>' ∉ t) :
    findTagTokens ('<' :: (t ++ '>' :: rest)) = t :: findTagTokens rest := by
  simp only [findTagTokens]
  rw [tagScan]
  rw [if_pos rfl]
  rw [tagScan_run rest t [] hgt]
  simp [hne]

theorem mkTagStr_data : ∀ tags : List String,
    (mkTagStr tags).data = (tags.map fun t => '<' :: (t.data ++ ['>'])).flatten := by
  intro tags
  induction tags with
  | nil => rfl
  | cons t ts ih =>
    have hstep : mkTagStr (t :: ts) = "<" ++ t ++ ">" ++ mkTagStr ts := rfl
    have hlt : ("<" : String).data = ['<'] := rfl
    have hgt : (">" : String).data = ['>'] := rfl
    rw [hstep, String.data_append, String.data_append, String.data_append, ih, hlt, hgt]
    simp [List.map_cons, List.flatten_cons, List.append_assoc]

/-- C5: for every list of tag tokens (each non-empty and free of `'>'`), the
tag extractor applied to the string `<tag1><tag2>...<tagN>` returns exactly
the set of those tokens with the angle brackets stripped, and the empty
string yields the empty set. -/
theorem c5_tag_set_round_trip :
    (∀ tags : List String, (∀ t ∈ tags, t ≠ "" ∧ '>' ∉ t.data) →
       PostFilter.extract_tags (mkTagStr tags) = tags.toFinset) ∧
      PostFilter.extract_tags "" = ∅ := by
  constructor
  · intro tags
    induction tags with
    | nil => intro _; rfl
    | cons t ts ih =>
      intro hall
      have ht := hall t (List.mem_cons_self t ts)
      have hts : ∀ x ∈ ts, x ≠ "" ∧ '>' ∉ x.data := fun x hx =>
        hall x (List.mem_cons_of_mem _ hx)
      have htd : t.data ≠ [] := by
        intro hd
        exact ht.1 (String.ext (by rw [hd]))
      have hdata : (mkTagStr (t :: ts)).data =
          '<' :: (t.data ++ ('>' :: (mkTagStr ts).data)) := by
        rw [mkTagStr_data]
        simp only [List.map_cons, List.flatten_cons]
        rw [← mkTagStr_data ts]
        simp [List.append_assoc]
      have hne : mkTagStr (t :: ts) ≠ "" := by
        intro hcon
        have h0 : (mkTagStr (t :: ts)).data = [] := by rw [hcon]
        rw [hdata] at h0
        simp at h0
      simp only [PostFilter.extract_tags]
      rw [if_neg hne, hdata, findTagTokens_cons_tag _ _ htd ht.2]
      simp only [List.map_cons, List.toFinset_cons]
      have hmk : String.mk t.data = t := rfl
      rw [hmk]
      have htail : ((findTagTokens (mkTagStr ts).data).map fun cs => String.mk cs).toFinset =
          PostFilter.extract_tags (mkTagStr ts) := by
        simp only [PostFilter.extract_tags]
        by_cases hts0 : mkTagStr ts = ""
        · rw [if_pos hts0, hts0]; decide
        · rw [if_neg hts0]
      rw [htail, ih hts]
  · rfl

theorem c5_witness
    : PostFilter.extract_tags (mkTagStr ["a", "b", "c"]) =
      ({"a", "b", "c"} : Finset String) := by
  have h := c5_tag_set_round_trip.1 ["a", "b", "c"] (by decide)
  rw [h]
  decide

/-- The `topic_counter` state threaded through the formatting fold pairs the
records with consecutive counter values starting from the initial one. -/
theorem topics_foldl_spec :
    ∀ (qs : List Record) (acc : List Topic) (c : Nat),
      qs.foldl (fun acc p =>
          let t := create_topic_element acc.2 p
          (acc.1 ++ [t.1], t.2)) (acc, c) =
        (acc ++ (qs.enumFrom c).map fun ip => (create_topic_element ip.1 ip.2).1,
          c + qs.length) := by
  intro qs
  induction qs with
  | nil => intro acc c; simp
  | cons q qs ih =>
    intro acc c
    rw [List.foldl_cons]
    have h2 := ih (acc ++ [(create_topic_element c q).1]) (c + 1)
    refine h2.trans ?_
    simp only [List.enumFrom_cons, List.map_cons, List.length_cons, Prod.mk.injEq]
    constructor
    · simp [List.append_assoc]
    · omega

/-- C7: the topics formatter keeps exactly the records whose `PostTypeId` is
`"1"` (an absent `PostTypeId` counting as `"1"`), in their original order,
silently dropping all others, and the n-th kept record (1-indexed) receives
the label `"A.n"`. -/
theorem c7_topics_keep_questions_number_sequentially (posts : List Record) :
    format_posts_to_topics posts =
        ((posts.filter fun p => getAttr p "PostTypeId" "1" == "1").enumFrom 1).map
          (fun ip => (create_topic_element ip.1 ip.2).1) ∧
      ∀ i (h : i < (format_posts_to_topics posts).length),
        ((format_posts_to_topics posts).get ⟨i, h⟩).number = "A." ++ toString (i + 1) := by
  have hmain : format_posts_to_topics posts =
      ((posts.filter fun p => getAttr p "PostTypeId" "1" == "1").enumFrom 1).map
        (fun ip => (create_topic_element ip.1 ip.2).1) := by
    simp only [format_posts_to_topics]
    rw [topics_foldl_spec]
    simp
  refine ⟨hmain, ?_⟩
  intro i h
  rw [List.get_of_eq hmain]
  simp only [List.get_eq_getElem, List.getElem_map, List.getElem_enumFrom]
  simp [create_topic_element, Nat.add_comm]

theorem c7_witness
    : ((format_posts_to_topics
          [[("PostTypeId", "1"), ("Title", "t1")],
           [("PostTypeId", "2")],
           [("Body", "b")]]).get ⟨1, by decide⟩).number = "A.2" := by
  have h := (c7_topics_keep_questions_number_sequentially
      [[("PostTypeId", "1"), ("Title", "t1")], [("PostTypeId", "2")],
       [("Body", "b")]]).2 1 (by decide)
  rw [h]
  decide

/-- C2: when `0 < K < N`, at least `K` records are accepted, and the `K`-th
accepted record sits at 1-based position `M`, the full pipeline's extraction
stops exactly there: `total_processed = M`, and the result is unchanged when
the stream is truncated to its first `M` records (no record past the `K`-th
accepted one is ever read).  The simple pipeline (whose `K`-th acceptor under
the year filter sits at `M'`) likewise returns the same result on the
truncated stream. -/
theorem c2_early_exit_stops_at_kth_accept
    (f : PostFilter) (K : Nat) (rows : List Record) (M : Nat)
    (mi ma : Option Int) (ys : Finset Int) (M' : Nat)
    (hK : 0 < K) (hKN : K < rows.length)
    (hok : ∀ r ∈ rows, (should_include_post f r).isOk)
    (hkth : kthAcceptPos (acceptsB f) K rows = some M)
    (hkth' : kthAcceptPos (fun r => should_include_post_by_year r mi ma ys) K rows =
      some M') :
    extract_from_file f K rows = .ok ((rows.take M).filter (acceptsB f), M) ∧
      extract_from_file f K rows = extract_from_file f K (rows.take M) ∧
      extract_posts_streaming rows K mi ma ys =
        extract_posts_streaming (rows.take M') K mi ma ys := by
  have hok' : ∀ r ∈ rows.take M, (should_include_post f r).isOk :=
    fun r hr => hok r (List.take_subset _ _ hr)
  have hkth0 : kthAcceptPos (acceptsB f) (K - 0) rows = some M := by
    rw [Nat.sub_zero]; exact hkth
  have h1 := @extractLoop_reach f K rows [] 0 0 M hK hok hkth0
  have hkthT : kthAcceptPos (acceptsB f) (K - 0) (rows.take M) = some M := by
    rw [Nat.sub_zero]; exact kthAcceptPos_take hkth
  have h2 := @extractLoop_reach f K (rows.take M) [] 0 0 M hK hok' hkthT
  refine ⟨?_, ?_, ?_⟩
  · rw [extract_from_file, h1]; simp
  · rw [extract_from_file, extract_from_file, h1, h2, List.take_take]
    simp
  · have hk0 : kthAcceptPos (fun r => should_include_post_by_year r mi ma ys) (K - 0)
        rows = some M' := by
      rw [Nat.sub_zero]; exact hkth'
    have hg1 := @extractYearLoop_reach K mi ma ys rows [] 0 M' hK hk0
    have hkT : kthAcceptPos (fun r => should_include_post_by_year r mi ma ys) (K - 0)
        (rows.take M') = some M' := by
      rw [Nat.sub_zero]; exact kthAcceptPos_take hkth'
    have hg2 := @extractYearLoop_reach K mi ma ys (rows.take M') [] 0 M' hK hkT
    rw [extract_posts_streaming, extract_posts_streaming, hg1, hg2, List.take_take]
    simp

theorem c2_witness
    : extract_from_file
        (mkPostFilter none none (some ["1"]) none none none none none none none none) 1
        [[("PostTypeId", "2"), ("CreationDate", "2020-01-01T00:00:00.000")],
         [("PostTypeId", "1"), ("CreationDate", "2010-01-01T00:00:00.000")],
         [("PostTypeId", "1"), ("CreationDate", "2020-05-05T00:00:00.000")]] =
        .ok ((([[("PostTypeId", "2"), ("CreationDate", "2020-01-01T00:00:00.000")],
                [("PostTypeId", "1"), ("CreationDate", "2010-01-01T00:00:00.000")],
                [("PostTypeId", "1"), ("CreationDate", "2020-05-05T00:00:00.000")]] :
                List Record).take 2).filter
            (acceptsB
              (mkPostFilter none none (some ["1"]) none none none none none none none none)),
          2) ∧
      extract_from_file
          (mkPostFilter none none (some ["1"]) none none none none none none none none) 1
          [[("PostTypeId", "2"), ("CreationDate", "2020-01-01T00:00:00.000")],
           [("PostTypeId", "1"), ("CreationDate", "2010-01-01T00:00:00.000")],
           [("PostTypeId", "1"), ("CreationDate", "2020-05-05T00:00:00.000")]] =
        extract_from_file
          (mkPostFilter none none (some ["1"]) none none none none none none none none) 1
          (([[("PostTypeId", "2"), ("CreationDate", "2020-01-01T00:00:00.000")],
             [("PostTypeId", "1"), ("CreationDate", "2010-01-01T00:00:00.000")],
             [("PostTypeId", "1"), ("CreationDate", "2020-05-05T00:00:00.000")]] :
             List Record).take 2) ∧
      extract_posts_streaming
          [[("PostTypeId", "2"), ("CreationDate", "2020-01-01T00:00:00.000")],
           [("PostTypeId", "1"), ("CreationDate", "2010-01-01T00:00:00.000")],
           [("PostTypeId", "1"), ("CreationDate", "2020-05-05T00:00:00.000")]]
          1 (some 2015) none ∅ =
        extract_posts_streaming
          (([[("PostTypeId", "2"), ("CreationDate", "2020-01-01T00:00:00.000")],
             [("PostTypeId", "1"), ("CreationDate", "2010-01-01T00:00:00.000")],
             [("PostTypeId", "1"), ("CreationDate", "2020-05-05T00:00:00.000")]] :
             List Record).take 1)
          1 (some 2015) none ∅ :=
  c2_early_exit_stops_at_kth_accept
    (mkPostFilter none none (some ["1"]) none none none none none none none none) 1
    [[("PostTypeId", "2"), ("CreationDate", "2020-01-01T00:00:00.000")],
     [("PostTypeId", "1"), ("CreationDate", "2010-01-01T00:00:00.000")],
     [("PostTypeId", "1"), ("CreationDate", "2020-05-05T00:00:00.000")]] 2
    (some 2015) none ∅ 1
    (by decide) (by decide) (by decide) (by decide) (by decide)

/-- C6: whenever extraction returns normally, the accepted list is exactly
the accepted records of the scanned front of the stream, in stream order
(a sublist of the stream, never reordered); likewise the simple pipeline's
result is a sublist of the stream's accepted records in stream order. -/
theorem c6_order_preservation
    (f : PostFilter) (target : Nat) (rows posts : List Record) (total : Nat)
    (num : Nat) (mi ma : Option Int) (ys : Finset Int)
    (hok : ∀ r ∈ rows, (should_include_post f r).isOk)
    (hex : extract_from_file f target rows = .ok (posts, total)) :
    posts = (rows.take total).filter (acceptsB f) ∧
      posts.Sublist rows ∧
      (extract_posts_streaming rows num mi ma ys).Sublist
        (rows.filter fun r => should_include_post_by_year r mi ma ys) := by
  rw [extract_from_file] at hex
  obtain ⟨hle, hps⟩ := extractLoop_posts_spec hok hex
  rw [Nat.sub_zero] at hps
  simp only [List.nil_append] at hps
  refine ⟨hps, ?_, ?_⟩
  · rw [hps]
    exact (List.filter_sublist _).trans (List.take_sublist _ _)
  · rw [extract_posts_streaming]
    obtain ⟨F, hF, hFs⟩ := extractYearLoop_sublist
    rw [hF]
    simpa using hFs

theorem c6_witness
    : [[("PostTypeId", "1"), ("Score", "3")]] =
        (([[("PostTypeId", "2"), ("Score", "9")],
           [("PostTypeId", "1"), ("Score", "3")]] : List Record).take 2).filter
          (acceptsB (mkPostFilter none none (some ["1"]) none none none none none none none none)) ∧
      ([[("PostTypeId", "1"), ("Score", "3")]] : List Record).Sublist
        [[("PostTypeId", "2"), ("Score", "9")], [("PostTypeId", "1"), ("Score", "3")]] ∧
      (extract_posts_streaming
          [[("PostTypeId", "2"), ("Score", "9")], [("PostTypeId", "1"), ("Score", "3")]]
          5 (some 2015) none ∅).Sublist
        (([[("PostTypeId", "2"), ("Score", "9")],
           [("PostTypeId", "1"), ("Score", "3")]] : List Record).filter
          fun r => should_include_post_by_year r (some 2015) none ∅) :=
  c6_order_preservation
    (mkPostFilter none none (some ["1"]) none none none none none none none none) 1
    [[("PostTypeId", "2"), ("Score", "9")], [("PostTypeId", "1"), ("Score", "3")]]
    [[("PostTypeId", "1"), ("Score", "3")]] 2 5 (some 2015) none ∅
    (by decide) (by decide)

/-- C9: when the scan completes without raising and zero records are
accepted, `main` signals failure (`sys.exit(1)`) and the output-writing step
is never reached — in both pipelines. -/
theorem c9_no_matches_fails_without_output
    (f : PostFilter) (K : Nat) (rows : List Record)
    (num : Nat) (mi ma : Option Int) (ys : Finset Int)
    (hok : ∀ r ∈ rows, (should_include_post f r).isOk)
    (hnone : rows.filter (acceptsB f) = [])
    (hnone' : (rows.filter fun r => should_include_post_by_year r mi ma ys) = []) :
    main_run f K rows = .exitFailure ∧ main_run_simple num mi ma ys rows = none := by
  constructor
  · obtain ⟨posts', total', h⟩ := @extractLoop_ok f K rows [] 0 0 hok
    obtain ⟨hle, hps⟩ := extractLoop_posts_spec hok h
    have hpe : posts' = [] := by
      rw [hps]
      simp only [List.nil_append]
      have hsub := ((List.take_sublist (total' - 0) rows).filter (acceptsB f)).trans
        (List.Sublist.refl _)
      rw [hnone] at hsub
      exact List.sublist_nil.mp hsub
    subst hpe
    simp only [main_run, extract_from_file, h, List.isEmpty_nil, if_true]
  · obtain ⟨F, hF, hFs⟩ := @extractYearLoop_sublist num mi ma ys rows [] 0
    rw [hnone'] at hFs
    have hFe : F = [] := List.sublist_nil.mp hFs
    subst hFe
    simp only [main_run_simple, extract_posts_streaming, hF, List.append_nil,
      List.isEmpty_nil, if_true]

theorem c9_witness
    : main_run (mkPostFilter none none none none none none none none none none none) 5
        [[("PostTypeId", "3"), ("CreationDate", "2010-01-01T00:00:00.000")]] = .exitFailure ∧
      main_run_simple 3 (some 2015) none ∅
        [[("PostTypeId", "3"), ("CreationDate", "2010-01-01T00:00:00.000")]] = none :=
  c9_no_matches_fails_without_output
    (mkPostFilter none none none none none none none none none none none) 5
    [[("PostTypeId", "3"), ("CreationDate", "2010-01-01T00:00:00.000")]]
    3 (some 2015) none ∅ (by decide) (by decide) (by decide)
